import Mathlib

/-!
Verification development for the NutriVision image-analysis pipeline
(`src/app.py`).  The embedding models, from the source:

* the JSON values that `resp.json()` can produce and the way Python's
  `str()` renders them inside an f-string (`pyStr`);
* the standard base64 alphabet and Python's `base64.b64encode`,
  together with an executable decoder and a round-trip theorem;
* the PIL operations used by `prepare_image` (decode, `convert("RGB")`,
  `thumbnail((900, 900))`, JPEG save / reopen), with the JPEG codec kept
  abstract behind a contract (`PILModel`): JPEG byte output, dimension
  preservation of an encode/reopen cycle, and pixel resampling;
* `encode_image_to_b64` and `analyze_food_image`, with the network call
  `requests.post` and the possibly-failing `image.save` step modelled as
  explicit `Except`-valued arguments, and the upload-size gate.
-/

/-- JSON values as produced by Python `json` parsing: `None`, booleans,
integers, floats (modelled as rationals), strings, lists and dicts
(association lists; parsed dicts have unique keys). -/
inductive Json where
  | null : Json
  | bool (b : Bool) : Json
  | int (n : ℤ) : Json
  | float (q : ℚ) : Json
  | str (s : String) : Json
  | arr (xs : List Json) : Json
  | obj (fields : List (String × Json)) : Json

/-- The single-quote character, used by Python string repr. -/
def squote : Char := Char.ofNat 39

/-- The double-quote character. -/
def dquote : Char := Char.ofNat 34

/-- The backslash character. -/
def bslash : Char := Char.ofNat 92

/-- Escape backslashes and the chosen quote character, as Python repr
does (escaping of control characters is not modelled; none of the
strings reaching `pyRepr` in the claims contain any). -/
def escQuote (q : Char) (s : String) : String :=
  String.mk (s.data.foldr (fun c acc =>
    if c = bslash then bslash :: bslash :: acc
    else if c = q then bslash :: c :: acc
    else c :: acc) [])

/-- Python `repr` of a string: single quotes preferred; double quotes
when the string contains a single quote but no double quote. -/
def pyReprStr (s : String) : String :=
  if s.data.contains squote ∧ ¬ s.data.contains dquote then
    String.mk [dquote] ++ escQuote dquote s ++ String.mk [dquote]
  else
    String.mk [squote] ++ escQuote squote s ++ String.mk [squote]

mutual

/-- Python `repr` of a parsed-JSON value (`None` / `True` / `False`,
ints, strings with quotes, list and dict displays).  Floats are
abstracted: Python's shortest-round-trip float formatting is modelled
as the rational's own rendering and is exercised by no claim. -/
def pyRepr : Json → String
  | Json.null => "None"
  | Json.bool true => "True"
  | Json.bool false => "False"
  | Json.int n => toString n
  | Json.float q => toString q
  | Json.str s => pyReprStr s
  | Json.arr xs => "[" ++ pyReprSeq xs ++ "]"
  | Json.obj fs => "\x7b" ++ pyReprDict fs ++ "\x7d"

/-- Comma-separated repr of the elements of a Python list. -/
def pyReprSeq : List Json → String
  | [] => ""
  | [j] => pyRepr j
  | j :: rest => pyRepr j ++ ", " ++ pyReprSeq rest

/-- Comma-separated `key: value` repr of the items of a Python dict. -/
def pyReprDict : List (String × Json) → String
  | [] => ""
  | [(k, v)] => pyReprStr k ++ ": " ++ pyRepr v
  | (k, v) :: rest => pyReprStr k ++ ": " ++ pyRepr v ++ ", " ++ pyReprDict rest

end

/-- Python `str()` of a parsed-JSON value, as used when the value is
interpolated into an f-string: a `str` is inserted bare, everything
else via its repr. -/
def pyStr : Json → String
  | Json.str s => s
  | j => pyRepr j

/-- Character `n` of the standard base64 alphabet
(`A-Z`, `a-z`, `0-9`, `+`, `/`), as used by `base64.b64encode`. -/
def idxToChar (n : ℕ) : Char :=
  if n < 26 then Char.ofNat (65 + n)
  else if n < 52 then Char.ofNat (97 + (n - 26))
  else if n < 62 then Char.ofNat (48 + (n - 52))
  else if n = 62 then Char.ofNat 43
  else Char.ofNat 47

/-- The base64 padding character. -/
def padChar : Char := Char.ofNat 61

/-- Inverse of the standard base64 alphabet; `none` on any character
outside it (the padding character included). -/
def charToIdx (c : Char) : Option ℕ :=
  if 65 ≤ c.toNat ∧ c.toNat ≤ 90 then some (c.toNat - 65)
  else if 97 ≤ c.toNat ∧ c.toNat ≤ 122 then some (26 + (c.toNat - 97))
  else if 48 ≤ c.toNat ∧ c.toNat ≤ 57 then some (52 + (c.toNat - 48))
  else if c.toNat = 43 then some 62
  else if c.toNat = 47 then some 63
  else none

/-- Python `base64.b64encode` on a byte sequence (bytes as naturals
below 256): three bytes become four alphabet characters; a final group
of one or two bytes is padded with `=`. -/
def b64encodeList : List ℕ → List Char
  | [] => []
  | [a] => [idxToChar (a / 4), idxToChar (a % 4 * 16), padChar, padChar]
  | [a, b] =>
      [idxToChar (a / 4), idxToChar (a % 4 * 16 + b / 16),
       idxToChar (b % 16 * 4), padChar]
  | a :: b :: c :: rest =>
      idxToChar (a / 4) :: idxToChar (a % 4 * 16 + b / 16) ::
      idxToChar (b % 16 * 4 + c / 64) :: idxToChar (c % 64) ::
      b64encodeList rest

/-- Base64 decoding: four characters at a time, honouring `=` padding
in the final group; `none` on malformed input. -/
def b64decodeList : List Char → Option (List ℕ)
  | [] => some []
  | c1 :: c2 :: c3 :: c4 :: rest =>
      (charToIdx c1).bind fun i1 =>
      (charToIdx c2).bind fun i2 =>
      if c3 = padChar ∧ c4 = padChar ∧ rest = [] then
        some [i1 * 4 + i2 / 16]
      else if c4 = padChar ∧ rest = [] then
        (charToIdx c3).bind fun i3 =>
        some [i1 * 4 + i2 / 16, i2 % 16 * 16 + i3 / 4]
      else
        (charToIdx c3).bind fun i3 =>
        (charToIdx c4).bind fun i4 =>
        (b64decodeList rest).bind fun tail =>
        some ((i1 * 4 + i2 / 16) :: (i2 % 16 * 16 + i3 / 4) ::
              (i3 % 4 * 64 + i4) :: tail)
  | _ => none

/-- Base64 decoding of a string, character-wise. -/
def b64decodeStr (s : String) : Option (List ℕ) :=
  b64decodeList s.data

theorem charToIdx_idxToChar : ∀ n : ℕ, n < 64 → charToIdx (idxToChar n) = some n := by
  decide

theorem idxToChar_ne_padChar : ∀ n : ℕ, n < 64 → idxToChar n ≠ padChar := by
  decide

theorem b64_roundtrip (bs : List ℕ) (h : ∀ x ∈ bs, x < 256) :
    b64decodeList (b64encodeList bs) = some bs := by
  induction bs using b64encodeList.induct with
  | case1 => rfl
  | case2 a =>
      have ha : a < 256 := h a (by simp)
      simp [b64encodeList, b64decodeList,
        charToIdx_idxToChar (a / 4) (by omega),
        charToIdx_idxToChar (a % 4 * 16) (by omega)]
      omega
  | case3 a b =>
      have ha : a < 256 := h a (by simp)
      have hb : b < 256 := h b (by simp)
      have hne : idxToChar (b % 16 * 4) ≠ padChar :=
        idxToChar_ne_padChar _ (by omega)
      simp [b64encodeList, b64decodeList,
        charToIdx_idxToChar (a / 4) (by omega),
        charToIdx_idxToChar (a % 4 * 16 + b / 16) (by omega),
        charToIdx_idxToChar (b % 16 * 4) (by omega), hne]
      constructor <;> omega
  | case4 a b c rest ih =>
      have ha : a < 256 := h a (by simp)
      have hb : b < 256 := h b (by simp)
      have hc : c < 256 := h c (by simp)
      have hrest : ∀ x ∈ rest, x < 256 := fun x hx => h x (by simp [hx])
      have hne3 : idxToChar (b % 16 * 4 + c / 64) ≠ padChar :=
        idxToChar_ne_padChar _ (by omega)
      have hne4 : idxToChar (c % 64) ≠ padChar :=
        idxToChar_ne_padChar _ (by omega)
      simp [b64encodeList, b64decodeList,
        charToIdx_idxToChar (a / 4) (by omega),
        charToIdx_idxToChar (a % 4 * 16 + b / 16) (by omega),
        charToIdx_idxToChar (b % 16 * 4 + c / 64) (by omega),
        charToIdx_idxToChar (c % 64) (by omega), hne3, hne4, ih hrest]
      refine ⟨by omega, by omega, by omega⟩

/-- An in-memory PIL image: pixel dimensions plus abstract pixel
content. -/
structure Image where
  width : ℕ
  height : ℕ
  data : List ℕ

/-- The PIL operations that `prepare_image` and `encode_image_to_b64`
rely on.  The JPEG codec itself and pixel resampling are third-party
code kept abstract; the two contract fields state the library
guarantees used by the source: a JPEG save produces bytes, and saving
an image as JPEG and reopening that buffer yields an image with the
same pixel dimensions. -/
structure PILModel where
  openImage : List ℕ → Option Image
  jpegEncode : Image → ℕ → List ℕ
  resample : Image → ℕ → ℕ → List ℕ
  toRGB : List ℕ → List ℕ
  jpegEncode_byte_lt : ∀ i q, ∀ b ∈ jpegEncode i q, b < 256
  openImage_jpegEncode : ∀ i q, ∃ i2,
    openImage (jpegEncode i q) = some i2 ∧
    i2.width = i.width ∧ i2.height = i.height

/-- PIL `convert("RGB")`: normalizes the colour mode; pixel dimensions
are untouched. -/
def convertRGB (P : PILModel) (i : Image) : Image :=
  ⟨i.width, i.height, P.toRGB i.data⟩

/-- Pillow's internal `round_aspect(number, key)` from `Image.thumbnail`:
`max(min(floor(number), ceil(number), key=key), 1)`, where Python `min`
returns its first argument on a tie.  Modelled over exact rationals. -/
def round_aspect (number : ℚ) (key : ℤ → ℚ) : ℤ :=
  max (if key ⌊number⌋ ≤ key ⌈number⌉ then ⌊number⌋ else ⌈number⌉) 1

/-- The size Pillow's `thumbnail((900, 900))` computes for an image of
size `w × h` once past its early return, following the library source:
`aspect = w / h`; if `900 / 900 >= aspect` the height stays 900 and the
width is `round_aspect(900 * aspect)`, otherwise the width stays 900
and the height is `round_aspect(900 / aspect)`.  Modelled over exact
rationals. -/
def thumbnailSize (w h : ℕ) : ℕ × ℕ :=
  let aspect : ℚ := (w : ℚ) / (h : ℚ)
  if (900 : ℚ) / (900 : ℚ) ≥ aspect then
    ((round_aspect ((900 : ℚ) * aspect)
        (fun n => |aspect - (n : ℚ) / (900 : ℚ)|)).toNat, 900)
  else
    (900, (round_aspect ((900 : ℚ) / aspect)
        (fun n => if n = 0 then 0 else |aspect - (900 : ℚ) / (n : ℚ)|)).toNat)

/-- `img.thumbnail((900, 900))`: early return when both dimensions fit
within 900, otherwise in-place resize to `thumbnailSize`. -/
def thumbnail (P : PILModel) (img : Image) : Image :=
  if 900 ≥ img.width ∧ 900 ≥ img.height then img
  else
    let sz := thumbnailSize img.width img.height
    ⟨sz.1, sz.2, P.resample img sz.1 sz.2⟩

/-- `prepare_image` (src/app.py lines 48-63): decode the upload
(`Image.open`, `none` models a decode failure raising), normalize to
RGB, bound dimensions with `thumbnail((900, 900))`, save as JPEG at
quality 75 into a fresh in-memory buffer and reopen that buffer. -/
def prepare_image (P : PILModel) (file : List ℕ) : Option Image :=
  match P.openImage file with
  | none => none
  | some raw =>
      let img := convertRGB P raw
      let img := thumbnail P img
      P.openImage (P.jpegEncode img 75)

/-- `encode_image_to_b64` (src/app.py lines 69-72): save the image as
JPEG at quality 80 into a fresh in-memory buffer and base64-encode the
buffer contents.  The save step is passed explicitly as an
`Except`-valued function because a PIL image object can raise on save
(for example, when backed by a closed file); saving a validly prepared
image succeeds. -/
def encode_image_to_b64 (save : Image → ℕ → Except String (List ℕ))
    (image : Image) : Except String String :=
  match save image 80 with
  | Except.error e => Except.error e
  | Except.ok buf => Except.ok (String.mk (b64encodeList buf))

/-- The save behaviour of a valid in-memory image: `image.save` writes
the JPEG encoding of the image and does not raise. -/
def pureSave (P : PILModel) : Image → ℕ → Except String (List ℕ) :=
  fun i q => Except.ok (P.jpegEncode i q)

theorem round_aspect_bounds (a : ℚ) (key : ℤ → ℚ) (h0 : 0 < a) (h9 : a ≤ 900) :
    1 ≤ round_aspect a key ∧ round_aspect a key ≤ 900 ∧
    |((round_aspect a key : ℤ) : ℚ) - a| < 1 := by
  have hfl : (0 : ℤ) ≤ ⌊a⌋ := Int.floor_nonneg.mpr h0.le
  have hfu : ⌊a⌋ ≤ 900 := by
    have : (⌊a⌋ : ℚ) ≤ 900 := (Int.floor_le a).trans h9
    exact_mod_cast this
  have hcl : (1 : ℤ) ≤ ⌈a⌉ := Int.ceil_pos.mpr h0
  have hcu : ⌈a⌉ ≤ 900 := Int.ceil_le.mpr (by exact_mod_cast h9)
  have hflo : (⌊a⌋ : ℚ) ≤ a := Int.floor_le a
  have hflo2 : a - 1 < (⌊a⌋ : ℚ) := Int.sub_one_lt_floor a
  have hcei : a ≤ (⌈a⌉ : ℚ) := Int.le_ceil a
  have hcei2 : ((⌈a⌉ : ℤ) : ℚ) < a + 1 := Int.ceil_lt_add_one a
  unfold round_aspect
  by_cases hk : key ⌊a⌋ ≤ key ⌈a⌉
  · simp only [if_pos hk]
    by_cases h1 : (1 : ℤ) ≤ ⌊a⌋
    · rw [max_eq_left h1]
      refine ⟨h1, hfu, ?_⟩
      rw [abs_sub_lt_iff]
      constructor <;> [linarith; linarith]
    · have hz : ⌊a⌋ = 0 := by omega
      rw [max_eq_right (by omega)]
      have ha1 : a < 1 := by
        have := Int.lt_floor_add_one a
        rw [hz] at this
        simpa using this
      refine ⟨le_refl 1, by norm_num, ?_⟩
      rw [abs_sub_lt_iff]
      push_cast
      constructor <;> linarith
  · simp only [if_neg hk]
    rw [max_eq_left hcl]
    refine ⟨hcl, hcu, ?_⟩
    rw [abs_sub_lt_iff]
    constructor <;> linarith

theorem thumbnailSize_spec (w h : ℕ) (hw : 0 < w) (hh : 0 < h)
    (hbig : ¬(w ≤ 900 ∧ h ≤ 900)) :
    (thumbnailSize w h).1 ≤ 900 ∧ (thumbnailSize w h).2 ≤ 900 ∧
    max (thumbnailSize w h).1 (thumbnailSize w h).2 = 900 ∧
    |((min (thumbnailSize w h).1 (thumbnailSize w h).2 : ℕ) : ℚ) -
      900 * ((min w h : ℕ) : ℚ) / ((max w h : ℕ) : ℚ)| < 1 := by
  have hwq : (0 : ℚ) < (w : ℚ) := by exact_mod_cast hw
  have hhq : (0 : ℚ) < (h : ℚ) := by exact_mod_cast hh
  have h900 : (900 : ℚ) / 900 = 1 := by norm_num
  unfold thumbnailSize
  by_cases hcmp : (900 : ℚ) / (900 : ℚ) ≥ (w : ℚ) / (h : ℚ)
  · -- width-bounded branch: w ≤ h, so h > 900
    have h1 : (w : ℚ) / (h : ℚ) ≤ 1 := by
      have h2 := hcmp
      rw [h900] at h2
      exact h2
    have hwh : w ≤ h := by
      have := (div_le_one hhq).mp h1
      exact_mod_cast this
    have hh900 : 900 < h := by omega
    have hpos : (0 : ℚ) < 900 * ((w : ℚ) / (h : ℚ)) := by positivity
    have hle : 900 * ((w : ℚ) / (h : ℚ)) ≤ 900 := by nlinarith
    obtain ⟨hr1, hr2, hr3⟩ := round_aspect_bounds (900 * ((w : ℚ) / (h : ℚ)))
      (fun n => |(w : ℚ) / (h : ℚ) - (n : ℚ) / (900 : ℚ)|) hpos hle
    simp only [if_pos hcmp]
    set x : ℤ := round_aspect (900 * ((w : ℚ) / (h : ℚ)))
      (fun n => |(w : ℚ) / (h : ℚ) - (n : ℚ) / (900 : ℚ)|) with hx
    have hxt : x.toNat ≤ 900 := by omega
    have hcast : ((x.toNat : ℕ) : ℚ) = ((x : ℤ) : ℚ) := by
      have h3 := Int.toNat_of_nonneg (show (0 : ℤ) ≤ x by omega)
      exact_mod_cast congrArg (fun z : ℤ => (z : ℚ)) h3
    refine ⟨hxt, le_refl 900, ?_, ?_⟩
    · simp [Nat.max_eq_right hxt]
    · rw [Nat.min_eq_left hxt, Nat.min_eq_left hwh, Nat.max_eq_right hwh, hcast]
      have h4 : 900 * ((w : ℚ) / (h : ℚ)) = 900 * (w : ℚ) / (h : ℚ) := by ring
      rw [h4] at hr3
      exact hr3
  · -- height-bounded branch: w > h, so w > 900
    have h1 : (1 : ℚ) < (w : ℚ) / (h : ℚ) := by
      have h2 := lt_of_not_ge hcmp
      rw [h900] at h2
      exact h2
    have hwh : h < w := by
      have := (one_lt_div hhq).mp h1
      exact_mod_cast this
    have hw900 : 900 < w := by omega
    have haspect : (900 : ℚ) / ((w : ℚ) / (h : ℚ)) = 900 * (h : ℚ) / (w : ℚ) := by
      field_simp
    have hpos : (0 : ℚ) < (900 : ℚ) / ((w : ℚ) / (h : ℚ)) := by positivity
    have hle : (900 : ℚ) / ((w : ℚ) / (h : ℚ)) ≤ 900 := by
      rw [haspect, div_le_iff₀ (by positivity)]
      have h5 : (h : ℚ) ≤ (w : ℚ) := by exact_mod_cast hwh.le
      nlinarith
    obtain ⟨hr1, hr2, hr3⟩ := round_aspect_bounds ((900 : ℚ) / ((w : ℚ) / (h : ℚ)))
      (fun n => if n = 0 then 0 else |(w : ℚ) / (h : ℚ) - (900 : ℚ) / (n : ℚ)|)
      hpos hle
    simp only [if_neg hcmp]
    set y : ℤ := round_aspect ((900 : ℚ) / ((w : ℚ) / (h : ℚ)))
      (fun n => if n = 0 then 0 else |(w : ℚ) / (h : ℚ) - (900 : ℚ) / (n : ℚ)|)
      with hy
    have hyt : y.toNat ≤ 900 := by omega
    have hcast : ((y.toNat : ℕ) : ℚ) = ((y : ℤ) : ℚ) := by
      have h3 := Int.toNat_of_nonneg (show (0 : ℤ) ≤ y by omega)
      exact_mod_cast congrArg (fun z : ℤ => (z : ℚ)) h3
    refine ⟨le_refl 900, hyt, ?_, ?_⟩
    · simp [Nat.max_eq_left hyt]
    · rw [Nat.min_eq_right hyt, Nat.min_eq_right hwh.le, Nat.max_eq_left hwh.le, hcast]
      rw [haspect] at hr3
      exact hr3

/-- C5: for every decodable input image, `prepare_image` returns an
image whose long edge is at most 900 px; if the input long edge exceeds
900 px the output long edge is exactly 900 px and the other dimension
is the aspect-preserving scaled value (within one pixel of the exact
rational scale, which is what Pillow's rounding produces); if both
input dimensions are at most 900 px the dimensions are unchanged. -/
theorem prepare_image_long_edge (P : PILModel) (file : List ℕ) (img0 : Image)
    (hopen : P.openImage file = some img0)
    (hw : 0 < img0.width) (hh : 0 < img0.height) :
    ∃ out, prepare_image P file = some out ∧
      out.width ≤ 900 ∧ out.height ≤ 900 ∧
      ((img0.width ≤ 900 ∧ img0.height ≤ 900) →
        out.width = img0.width ∧ out.height = img0.height) ∧
      (900 < max img0.width img0.height →
        max out.width out.height = 900 ∧
        |((min out.width out.height : ℕ) : ℚ) -
          900 * ((min img0.width img0.height : ℕ) : ℚ) /
          ((max img0.width img0.height : ℕ) : ℚ)| < 1) := by
  by_cases hsmall : img0.width ≤ 900 ∧ img0.height ≤ 900
  · have ht : thumbnail P (convertRGB P img0) = convertRGB P img0 := by
      unfold thumbnail
      rw [if_pos]
      exact ⟨hsmall.1, hsmall.2⟩
    obtain ⟨out, hout, how, hoh⟩ :=
      P.openImage_jpegEncode (thumbnail P (convertRGB P img0)) 75
    have h1 : out.width = img0.width := by rw [how, ht]; exact rfl
    have h2 : out.height = img0.height := by rw [hoh, ht]; exact rfl
    refine ⟨out, ?_, ?_, ?_, fun _ => ⟨h1, h2⟩, fun hbig => absurd hsmall ?_⟩
    · simp only [prepare_image, hopen]
      exact hout
    · omega
    · omega
    · omega
  · have ht : thumbnail P (convertRGB P img0) =
        ⟨(thumbnailSize img0.width img0.height).1,
         (thumbnailSize img0.width img0.height).2,
         P.resample (convertRGB P img0)
           (thumbnailSize img0.width img0.height).1
           (thumbnailSize img0.width img0.height).2⟩ := by
      have hcond : ¬(900 ≥ (convertRGB P img0).width ∧
          900 ≥ (convertRGB P img0).height) := by
        simp only [convertRGB]
        intro hcon
        exact hsmall ⟨hcon.1, hcon.2⟩
      unfold thumbnail
      rw [if_neg hcond]
      exact rfl
    have hspec := thumbnailSize_spec img0.width img0.height hw hh hsmall
    obtain ⟨out, hout, how, hoh⟩ :=
      P.openImage_jpegEncode (thumbnail P (convertRGB P img0)) 75
    have h1 : out.width = (thumbnailSize img0.width img0.height).1 := by
      rw [how, ht]
    have h2 : out.height = (thumbnailSize img0.width img0.height).2 := by
      rw [hoh, ht]
    refine ⟨out, ?_, ?_, ?_, fun hsm => absurd hsm hsmall, fun _ => ?_⟩
    · simp only [prepare_image, hopen]
      exact hout
    · omega
    · omega
    · rw [h1, h2]
      exact ⟨hspec.2.2.1, hspec.2.2.2⟩

/-- An HTTP response as seen through the `requests` response object:
status code, the reason phrase and URL (used only in the
`raise_for_status` message), and the outcome of `resp.json()` — either
the parsed body or the description of the decode exception it raises. -/
structure Response where
  status_code : ℕ
  reason : String
  url : String
  json_result : Except String Json

/-- `requests.Response.ok`: true exactly when `raise_for_status` would
not raise, that is when the status code is outside 400-599. -/
def Response.ok (r : Response) : Bool :=
  !(decide (400 ≤ r.status_code ∧ r.status_code < 600))

/-- The description of the `HTTPError` raised by
`requests.Response.raise_for_status` — `"<code> Client Error: <reason>
for url: <url>"` for 4xx, `"<code> Server Error: ..."` for 5xx.  Only
invoked by the source on a response with `not resp.ok`, so the status
code is in 400-599. -/
def raise_for_status_msg (r : Response) : String :=
  if r.status_code < 500 then
    toString r.status_code ++ " Client Error: " ++ r.reason ++
      " for url: " ++ r.url
  else
    toString r.status_code ++ " Server Error: " ++ r.reason ++
      " for url: " ++ r.url

/-- The Python type name of a parsed-JSON value, as used in
`TypeError` messages. -/
def typeName : Json → String
  | Json.null => "NoneType"
  | Json.bool _ => "bool"
  | Json.int _ => "int"
  | Json.float _ => "float"
  | Json.str _ => "str"
  | Json.arr _ => "list"
  | Json.obj _ => "dict"

/-- Python subscripting `v["key"]` on a parsed-JSON value: dict lookup
(raising `KeyError`, whose description is the repr of the key, when
absent), `TypeError` on lists and non-subscriptables, and the string
`TypeError` for string bases.  The exact `TypeError` wording varies
across Python versions; one representative wording is modelled. -/
def dictStrIndex (j : Json) (k : String) : Except String Json :=
  match j with
  | Json.obj fields =>
      match fields.lookup k with
      | some v => Except.ok v
      | none => Except.error (pyReprStr k)
  | Json.arr _ =>
      Except.error "list indices must be integers or slices, not str"
  | Json.str _ =>
      Except.error "string indices must be integers"
  | other =>
      Except.error (String.mk [squote] ++ typeName other ++
        String.mk [squote] ++ " object is not subscriptable")

/-- Python subscripting `v[i]` with a non-negative integer: list
indexing (raising `IndexError` when out of range), dict lookup by the
integer key (always a `KeyError` here since parsed-JSON dict keys are
strings; its description is `str(i)`), single-character string
indexing, and `TypeError` otherwise. -/
def intIndex (j : Json) (i : ℕ) : Except String Json :=
  match j with
  | Json.arr xs =>
      match xs.get? i with
      | some v => Except.ok v
      | none => Except.error "list index out of range"
  | Json.obj _ => Except.error (toString i)
  | Json.str s =>
      match s.data.get? i with
      | some c => Except.ok (Json.str (String.mk [c]))
      | none => Except.error "string index out of range"
  | other =>
      Except.error (String.mk [squote] ++ typeName other ++
        String.mk [squote] ++ " object is not subscriptable")

/-- The success-path extraction
`data["choices"][0]["message"]["content"]` (src/app.py line 110); any
failing subscript raises, surfacing as an `Except.error` that the outer
handler of `analyze_food_image` catches. -/
def extractContent (data : Json) : Except String Json :=
  dictStrIndex data "choices" >>= fun c =>
  intIndex c 0 >>= fun c0 =>
  dictStrIndex c0 "message" >>= fun m =>
  dictStrIndex m "content"

/-- The fixed advisory returned on HTTP status 413 (src/app.py
line 101). -/
def tooLargeMsg : String :=
  "⚠️ The image is still too large. Try uploading a smaller image."

/-- The `f"⚠️ API error {resp.status_code}: {resp.json()}"` string
(src/app.py line 105). -/
def apiErrorMsg (code : ℕ) (j : Json) : String :=
  "⚠️ API error " ++ toString code ++ ": " ++ pyStr j

/-- The outer-handler conversion
`f"⚠️ Error communicating with Groq API: {e}"` (src/app.py line 113). -/
def commError (e : String) : String :=
  "⚠️ Error communicating with Groq API: " ++ e

/-- One content part of the single user message: the instruction text
or the data-URI image reference. -/
inductive ContentPart where
  | text (text : String) : ContentPart
  | image_url (url : String) : ContentPart

/-- One chat message of the request body. -/
structure ChatMessage where
  role : String
  content : List ContentPart

/-- The request body built by `analyze_food_image` (src/app.py lines
81-95), field for field. -/
structure Payload where
  model : String
  messages : List ChatMessage
  max_tokens : ℕ
  temperature : ℚ
  stream : Bool

/-- The fixed model identifier (src/app.py line 39). -/
def MODEL_NAME : String := "meta-llama/llama-4-scout-17b-16e-instruct"

/-- Construction of the request body from the prompt, the base64
payload and the temperature, exactly as the `payload` dict literal of
`analyze_food_image`. -/
def mkPayload (prompt img_b64 : String) (temperature : ℚ) : Payload :=
  { model := MODEL_NAME
    messages := [⟨"user",
      [ContentPart.text prompt,
       ContentPart.image_url ("data:image/jpeg;base64," ++ img_b64)]⟩]
    max_tokens := 700
    temperature := temperature
    stream := false }

/-- The body of the `try` block of `analyze_food_image` (src/app.py
lines 97-110), as a function of the outcome of `requests.post`:
`Except.error` is an exception escaping the `try` block to the outer
handler.  In source order: a raised post exception propagates; status
413 returns the fixed advisory; a not-ok status returns the formatted
API-error string when `resp.json()` parses, otherwise
`raise_for_status` raises; an ok status parses the body (a JSON decode
failure raises) and evaluates the subscript chain. -/
def dispatchTry (postResult : Except String Response) : Except String Json :=
  match postResult with
  | Except.error e => Except.error e
  | Except.ok resp =>
      if resp.status_code = 413 then
        Except.ok (Json.str tooLargeMsg)
      else if !resp.ok then
        match resp.json_result with
        | Except.ok j => Except.ok (Json.str (apiErrorMsg resp.status_code j))
        | Except.error _ => Except.error (raise_for_status_msg resp)
      else
        match resp.json_result with
        | Except.error e => Except.error e
        | Except.ok data => extractContent data

/-- `analyze_food_image` (src/app.py lines 78-113).  The base64 encode
of the image happens before the `try` block, so a save failure
propagates as `Except.error`; the `post` argument models
`requests.post` applied to the constructed body; every outcome of the
`try` block is converted to a returned value (`Except.ok`), with
exceptions formatted by the outer handler. -/
def analyze_food_image (save : Image → ℕ → Except String (List ℕ))
    (post : Payload → Except String Response)
    (prompt : String) (image : Image) (temperature : ℚ) :
    Except String Json :=
  match encode_image_to_b64 save image with
  | Except.error e => Except.error e
  | Except.ok img_b64 =>
      let payload := mkPayload prompt img_b64 temperature
      Except.ok (match dispatchTry (post payload) with
        | Except.ok v => v
        | Except.error e => Json.str (commError e))

/-- An uploaded file as the UI hands it over: declared size in bytes
and raw content. -/
structure Upload where
  size : ℕ
  content : List ℕ

/-- Outcome of the upload branch (src/app.py lines 138-144): either
the interaction is halted with an error message, or preparation is
attempted on the file. -/
inductive UploadOutcome where
  | halted (msg : String) : UploadOutcome
  | prepared (img : Option Image) : UploadOutcome

/-- The upload-size gate and preparation call (src/app.py lines
138-144): sizes strictly above `4 * 1024 * 1024` bytes halt with the
fixed error text; anything else proceeds to `prepare_image`. -/
def handleUpload (P : PILModel) (u : Upload) : UploadOutcome :=
  if u.size > 4 * 1024 * 1024 then
    UploadOutcome.halted "❌ Image too large. Upload < 4MB."
  else
    UploadOutcome.prepared (prepare_image P u.content)

/-- Substring containment at the string level. -/
def strContains (s t : String) : Prop :=
  ∃ pre post, s = pre ++ t ++ post

theorem takeWhile_replicate_one (w : ℕ) (t : List ℕ) :
    (List.replicate w 1 ++ 0 :: t).takeWhile (· != 0) = List.replicate w 1 := by
  induction w with
  | zero => simp [List.takeWhile]
  | succ n ih => simp [List.replicate, List.takeWhile, ih]

theorem drop_replicate_one (w : ℕ) (t : List ℕ) :
    (List.replicate w 1 ++ 0 :: t).drop (w + 1) = t := by
  induction w with
  | zero => simp
  | succ n ih => simpa [List.replicate] using ih

/-- A concrete lossless stand-in codec inhabiting `PILModel`, used to
exercise the theorems on concrete inputs: an image is serialized as a
unary width marker, a separator, a unary height marker and a
separator. -/
def trivEncode (i : Image) (_q : ℕ) : List ℕ :=
  List.replicate i.width 1 ++ 0 :: (List.replicate i.height 1 ++ 0 :: [])

/-- Decoder matching `trivEncode`: read the two unary markers. -/
def trivOpen (bs : List ℕ) : Option Image :=
  if bs = [] then none
  else
    let w := (bs.takeWhile (· != 0)).length
    let rest := bs.drop (w + 1)
    some ⟨w, (rest.takeWhile (· != 0)).length, []⟩

/-- The concrete `PILModel` instance built from `trivEncode` /
`trivOpen`. -/
def trivPIL : PILModel where
  openImage := trivOpen
  jpegEncode := trivEncode
  resample := fun _ _ _ => []
  toRGB := id
  jpegEncode_byte_lt := by
    intro i q b hb
    simp [trivEncode, List.mem_append, List.mem_replicate, List.mem_cons] at hb
    omega
  openImage_jpegEncode := by
    intro i q
    have hne : trivEncode i q ≠ [] := by
      cases hw : i.width <;> simp [trivEncode, hw, List.replicate]
    refine ⟨⟨i.width, i.height, []⟩, ?_, rfl, rfl⟩
    simp only [trivOpen, if_neg hne]
    simp [trivEncode, takeWhile_replicate_one, drop_replicate_one]

/-- C1: for every prompt, prepared image (one whose base64 encode step
succeeds) and temperature, `analyze_food_image` returns a value rather
than raising, and whenever the request lifecycle inside the `try`
block raises an exception `e` — connection failure, timeout, JSON
decode failure, key-access failure — the returned value is the
formatted communication-error string containing the description of
`e`. -/
theorem analyze_food_image_never_raises
    (save : Image → ℕ → Except String (List ℕ))
    (post : Payload → Except String Response)
    (prompt : String) (image : Image) (temperature : ℚ) (b64 : String)
    (henc : encode_image_to_b64 save image = Except.ok b64) :
    (∃ v, analyze_food_image save post prompt image temperature = Except.ok v) ∧
    (∀ e, dispatchTry (post (mkPayload prompt b64 temperature)) = Except.error e →
      analyze_food_image save post prompt image temperature =
        Except.ok (Json.str (commError e)) ∧
      strContains (commError e) e) := by
  constructor
  · simp only [analyze_food_image, henc]
    exact ⟨_, rfl⟩
  · intro e he
    constructor
    · simp only [analyze_food_image, henc, he]
    · exact ⟨"⚠️ Error communicating with Groq API: ", "", by
        simp [commError]⟩

theorem analyze_food_image_never_raises_witness :
    (encode_image_to_b64 (fun _ _ => Except.ok []) ⟨1, 1, []⟩ = Except.ok "") ∧
    (analyze_food_image (fun _ _ => Except.ok [])
        (fun _ => Except.error "timed out") "p" ⟨1, 1, []⟩ 0 =
      Except.ok (Json.str (commError "timed out")) ∧
     strContains (commError "timed out") "timed out") :=
  ⟨rfl,
   (analyze_food_image_never_raises (fun _ _ => Except.ok [])
     (fun _ => Except.error "timed out") "p" ⟨1, 1, []⟩ 0 "" rfl).2
     "timed out" rfl⟩

/-- C3: whenever the HTTP response has status 413, `analyze_food_image`
returns the one fixed image-too-large advisory string, whatever the
request body, response body or reason were, and does not raise. -/
theorem analyze_food_image_413_advisory
    (save : Image → ℕ → Except String (List ℕ))
    (post : Payload → Except String Response)
    (prompt : String) (image : Image) (temperature : ℚ) (b64 : String)
    (resp : Response)
    (henc : encode_image_to_b64 save image = Except.ok b64)
    (hpost : post (mkPayload prompt b64 temperature) = Except.ok resp)
    (h413 : resp.status_code = 413) :
    analyze_food_image save post prompt image temperature =
      Except.ok (Json.str tooLargeMsg) := by
  simp [analyze_food_image, henc, hpost, dispatchTry, h413]

theorem analyze_food_image_413_advisory_witness :
    (encode_image_to_b64 (fun _ _ => Except.ok []) ⟨1, 1, []⟩ = Except.ok "") ∧
    ((413 : ℕ) = 413) ∧
    analyze_food_image (fun _ _ => Except.ok [])
      (fun _ => Except.ok ⟨413, "Payload Too Large",
        "https://api.groq.com/openai/v1/chat/completions",
        Except.error "Expecting value: line 1 column 1 (char 0)"⟩)
      "p" ⟨1, 1, []⟩ 1 =
      Except.ok (Json.str tooLargeMsg) :=
  ⟨rfl, rfl,
   analyze_food_image_413_advisory (fun _ _ => Except.ok [])
     (fun _ => Except.ok ⟨413, "Payload Too Large",
       "https://api.groq.com/openai/v1/chat/completions",
       Except.error "Expecting value: line 1 column 1 (char 0)"⟩)
     "p" ⟨1, 1, []⟩ 1 "" _ rfl rfl rfl⟩

/-- C10: the base64 encode of the image runs before the `try` block of
`analyze_food_image`; when the JPEG save step raises, the exception
propagates to the caller instead of being converted to a
communication-error string. -/
theorem analyze_food_image_save_failure_propagates
    (save : Image → ℕ → Except String (List ℕ))
    (post : Payload → Except String Response)
    (prompt : String) (image : Image) (temperature : ℚ) (e : String)
    (hsave : save image 80 = Except.error e) :
    analyze_food_image save post prompt image temperature =
      Except.error e := by
  simp [analyze_food_image, encode_image_to_b64, hsave]

theorem analyze_food_image_save_failure_propagates_witness :
    ((fun (_ : Image) (_ : ℕ) =>
        (Except.error "write to closed file" : Except String (List ℕ)))
      ⟨1, 1, []⟩ 80 = Except.error "write to closed file") ∧
    analyze_food_image
      (fun _ _ => Except.error "write to closed file")
      (fun _ => Except.error "unreachable") "p" ⟨1, 1, []⟩ 0 =
      Except.error "write to closed file" :=
  ⟨rfl,
   analyze_food_image_save_failure_propagates
     (fun _ _ => Except.error "write to closed file")
     (fun _ => Except.error "unreachable") "p" ⟨1, 1, []⟩ 0
     "write to closed file" rfl⟩

theorem extractContent_first_choice (s : String) (rest : List Json) :
    extractContent (Json.obj [("choices",
      Json.arr (Json.obj [("message",
        Json.obj [("content", Json.str s)])] :: rest))]) =
    Except.ok (Json.str s) := rfl

/-- C2: for every 2xx response whose JSON body has the shape
`choices: [ message: content: <string>, ...]`, `analyze_food_image`
returns the first choice's message content verbatim. -/
theorem analyze_food_image_2xx_content
    (save : Image → ℕ → Except String (List ℕ))
    (post : Payload → Except String Response)
    (prompt : String) (image : Image) (temperature : ℚ) (b64 : String)
    (resp : Response) (s : String) (rest : List Json)
    (henc : encode_image_to_b64 save image = Except.ok b64)
    (hpost : post (mkPayload prompt b64 temperature) = Except.ok resp)
    (h2xx : 200 ≤ resp.status_code ∧ resp.status_code < 300)
    (hbody : resp.json_result = Except.ok (Json.obj [("choices",
      Json.arr (Json.obj [("message",
        Json.obj [("content", Json.str s)])] :: rest))])) :
    analyze_food_image save post prompt image temperature =
      Except.ok (Json.str s) := by
  have h413 : ¬(resp.status_code = 413) := by omega
  have hok : resp.ok = true := by
    simp only [Response.ok, Bool.not_eq_true', decide_eq_false_iff_not]
    omega
  simp [analyze_food_image, henc, hpost, dispatchTry, h413, hok, hbody,
    extractContent_first_choice]

theorem analyze_food_image_2xx_content_witness :
    (encode_image_to_b64 (fun _ _ => Except.ok []) ⟨1, 1, []⟩ = Except.ok "") ∧
    (200 ≤ 200 ∧ 200 < 300) ∧
    analyze_food_image (fun _ _ => Except.ok [])
      (fun _ => Except.ok ⟨200, "OK",
        "https://api.groq.com/openai/v1/chat/completions",
        Except.ok (Json.obj [("choices",
          Json.arr (Json.obj [("message",
            Json.obj [("content", Json.str "Apple — ~95 cal")])] :: []))])⟩)
      "p" ⟨1, 1, []⟩ 0 =
      Except.ok (Json.str "Apple — ~95 cal") :=
  ⟨rfl, by omega,
   analyze_food_image_2xx_content (fun _ _ => Except.ok [])
     (fun _ => Except.ok ⟨200, "OK",
       "https://api.groq.com/openai/v1/chat/completions",
       Except.ok (Json.obj [("choices",
         Json.arr (Json.obj [("message",
           Json.obj [("content", Json.str "Apple — ~95 cal")])] :: []))])⟩)
     "p" ⟨1, 1, []⟩ 0 "" _ "Apple — ~95 cal" [] rfl rfl
     (by decide) rfl⟩

/-- C4: for a non-success status other than 413 (a status
`raise_for_status` would reject, 400-599), `analyze_food_image` returns
the formatted API-error string embedding the status code and the
parsed error body when `resp.json()` succeeds — a string containing
both the rendered status code and the rendered body — and, when
parsing fails, the `HTTPError` raised by `raise_for_status` reaches
the outer catch-all handler, whose formatted string is returned. -/
theorem analyze_food_image_http_error_branch
    (save : Image → ℕ → Except String (List ℕ))
    (post : Payload → Except String Response)
    (prompt : String) (image : Image) (temperature : ℚ) (b64 : String)
    (resp : Response)
    (henc : encode_image_to_b64 save image = Except.ok b64)
    (hpost : post (mkPayload prompt b64 temperature) = Except.ok resp)
    (hstatus : 400 ≤ resp.status_code ∧ resp.status_code < 600)
    (h413 : resp.status_code ≠ 413) :
    (∀ j, resp.json_result = Except.ok j →
      analyze_food_image save post prompt image temperature =
        Except.ok (Json.str (apiErrorMsg resp.status_code j)) ∧
      strContains (apiErrorMsg resp.status_code j)
        (toString resp.status_code) ∧
      strContains (apiErrorMsg resp.status_code j) (pyStr j)) ∧
    (∀ e, resp.json_result = Except.error e →
      analyze_food_image save post prompt image temperature =
        Except.ok (Json.str (commError (raise_for_status_msg resp)))) := by
  have hok : resp.ok = false := by
    simp only [Response.ok, Bool.not_eq_false', decide_eq_true_eq]
    omega
  constructor
  · intro j hj
    refine ⟨?_, ?_, ?_⟩
    · simp [analyze_food_image, henc, hpost, dispatchTry, h413, hok, hj]
    · exact ⟨"⚠️ API error ", ": " ++ pyStr j, by
        simp [apiErrorMsg, String.append_assoc]⟩
    · exact ⟨"⚠️ API error " ++ toString resp.status_code ++ ": ", "", by
        simp [apiErrorMsg, String.append_assoc]⟩
  · intro e he
    simp [analyze_food_image, henc, hpost, dispatchTry, h413, hok, he]

theorem analyze_food_image_http_error_branch_witness :
    (encode_image_to_b64 (fun _ _ => Except.ok []) ⟨1, 1, []⟩ = Except.ok "") ∧
    (400 ≤ 500 ∧ 500 < 600) ∧ ((500 : ℕ) ≠ 413) ∧
    (analyze_food_image (fun _ _ => Except.ok [])
       (fun _ => Except.ok ⟨500, "Internal Server Error",
         "https://api.groq.com/openai/v1/chat/completions",
         Except.ok (Json.obj [("error", Json.str "bad request")])⟩)
       "p" ⟨1, 1, []⟩ 0 =
       Except.ok (Json.str (apiErrorMsg 500
         (Json.obj [("error", Json.str "bad request")]))) ∧
     strContains (apiErrorMsg 500
       (Json.obj [("error", Json.str "bad request")])) (toString 500) ∧
     strContains (apiErrorMsg 500
       (Json.obj [("error", Json.str "bad request")]))
       (pyStr (Json.obj [("error", Json.str "bad request")]))) ∧
    strContains (pyStr (Json.obj [("error", Json.str "bad request")]))
      "bad request" :=
  ⟨rfl, by omega, by omega,
   (analyze_food_image_http_error_branch (fun _ _ => Except.ok [])
     (fun _ => Except.ok ⟨500, "Internal Server Error",
       "https://api.groq.com/openai/v1/chat/completions",
       Except.ok (Json.obj [("error", Json.str "bad request")])⟩)
     "p" ⟨1, 1, []⟩ 0 "" _ rfl rfl (by decide) (by decide)).1
     (Json.obj [("error", Json.str "bad request")]) rfl,
   ⟨"\x7b" ++ String.mk [squote] ++ "error" ++ String.mk [squote] ++ ": " ++
      String.mk [squote],
    String.mk [squote] ++ "\x7d", by
      simp [pyStr, pyRepr, pyReprDict, pyReprStr, escQuote, squote, dquote,
        bslash, String.append_assoc]⟩⟩

theorem prepare_image_long_edge_witness :
    trivPIL.openImage [1, 1, 0, 1, 0] = some (Image.mk 2 1 []) ∧
    0 < (Image.mk 2 1 []).width ∧ 0 < (Image.mk 2 1 []).height ∧
    ∃ out, prepare_image trivPIL [1, 1, 0, 1, 0] = some out ∧
      out.width ≤ 900 ∧ out.height ≤ 900 ∧
      (((Image.mk 2 1 []).width ≤ 900 ∧ (Image.mk 2 1 []).height ≤ 900) →
        out.width = (Image.mk 2 1 []).width ∧
        out.height = (Image.mk 2 1 []).height) ∧
      (900 < max (Image.mk 2 1 []).width (Image.mk 2 1 []).height →
        max out.width out.height = 900 ∧
        |((min out.width out.height : ℕ) : ℚ) -
          900 * ((min (Image.mk 2 1 []).width (Image.mk 2 1 []).height : ℕ) : ℚ) /
          ((max (Image.mk 2 1 []).width (Image.mk 2 1 []).height : ℕ) : ℚ)| < 1) := by
  have hopen : trivPIL.openImage [1, 1, 0, 1, 0] = some (Image.mk 2 1 []) := rfl
  exact ⟨hopen, by decide, by decide,
    prepare_image_long_edge trivPIL [1, 1, 0, 1, 0] (Image.mk 2 1 [])
      hopen (by decide) (by decide)⟩

/-- C6: round-trip — base64-decoding the output of
`encode_image_to_b64` recovers exactly the JPEG bytes that were
encoded, and opening those bytes yields a valid image with the same
pixel dimensions as the input (the dimension preservation of a JPEG
encode/decode cycle being the codec contract recorded in
`PILModel`). -/
theorem encode_image_b64_roundtrip (P : PILModel) (image : Image) :
    ∃ s bytes img2,
      encode_image_to_b64 (pureSave P) image = Except.ok s ∧
      b64decodeStr s = some bytes ∧
      P.openImage bytes = some img2 ∧
      img2.width = image.width ∧ img2.height = image.height := by
  obtain ⟨i2, hopen, hw, hh⟩ := P.openImage_jpegEncode image 80
  refine ⟨String.mk (b64encodeList (P.jpegEncode image 80)),
    P.jpegEncode image 80, i2, rfl, ?_, hopen, hw, hh⟩
  exact b64_roundtrip _ (P.jpegEncode_byte_lt image 80)

/-- C7: the request body built by the dispatch operation has exactly
one message, of role `user`, holding the instruction text part and
then the `image_url` part whose url is the `data:image/jpeg;base64,`
prefix followed by the payload; `max_tokens` is 700, `stream` is
false, the model is the fixed identifier, and the temperature field is
the caller-supplied value unmodified (the boundary values 0.0 and 1.0
included, being instances of the quantifier). -/
theorem mkPayload_shape (prompt b64 : String) (temperature : ℚ) :
    (mkPayload prompt b64 temperature).messages =
      [⟨"user", [ContentPart.text prompt,
        ContentPart.image_url ("data:image/jpeg;base64," ++ b64)]⟩] ∧
    (mkPayload prompt b64 temperature).max_tokens = 700 ∧
    (mkPayload prompt b64 temperature).stream = false ∧
    (mkPayload prompt b64 temperature).model = MODEL_NAME ∧
    (mkPayload prompt b64 temperature).temperature = temperature :=
  ⟨rfl, rfl, rfl, rfl, rfl⟩

/-- C8: encoding is deterministic — `encode_image_to_b64` writes into
a fresh in-memory buffer and its output depends on nothing but the
image (and the codec), so two invocations on the same prepared image
yield identical base64 strings; moreover on a prepared image the
encode never raises. -/
theorem encode_image_deterministic (P : PILModel) (image : Image) :
    encode_image_to_b64 (pureSave P) image =
      encode_image_to_b64 (pureSave P) image ∧
    ∃ s, encode_image_to_b64 (pureSave P) image = Except.ok s :=
  ⟨rfl, String.mk (b64encodeList (P.jpegEncode image 80)), rfl⟩

/-- C9: the upload-size gate halts the interaction exactly when the
declared size strictly exceeds 4194304 bytes (4 MiB); a declared size
of exactly 4194304 bytes passes the check and preparation is
attempted, although the rejection text reads `Upload < 4MB`. -/
theorem upload_size_gate (P : PILModel) (u : Upload) :
    (4194304 < u.size →
      handleUpload P u =
        UploadOutcome.halted "❌ Image too large. Upload < 4MB.") ∧
    (u.size ≤ 4194304 →
      handleUpload P u =
        UploadOutcome.prepared (prepare_image P u.content)) ∧
    handleUpload P ⟨4194304, u.content⟩ =
      UploadOutcome.prepared (prepare_image P u.content) := by
  refine ⟨fun hgt => ?_, fun hle => ?_, ?_⟩
  · simp only [handleUpload, if_pos (show u.size > 4 * 1024 * 1024 by omega)]
  · simp only [handleUpload, if_neg (show ¬(u.size > 4 * 1024 * 1024) by omega)]
  · simp only [handleUpload,
      if_neg (show ¬((4194304 : ℕ) > 4 * 1024 * 1024) by omega)]

theorem upload_size_gate_witness :
    (4194304 < 4194305) ∧
    handleUpload trivPIL ⟨4194305, []⟩ =
      UploadOutcome.halted "❌ Image too large. Upload < 4MB." ∧
    handleUpload trivPIL ⟨4194304, []⟩ =
      UploadOutcome.prepared (prepare_image trivPIL []) :=
  ⟨by omega,
   (upload_size_gate trivPIL ⟨4194305, []⟩).1 (by decide),
   (upload_size_gate trivPIL ⟨4194304, []⟩).2.2⟩
